import Mathlib

/-!
Verification of the multi-provider web-search comparison pipeline
(`nova-grounding-demo`): a shallow embedding of its data model (provider.go),
orchestrator scoring and ranking (claude.go / main), citation validation and
the two-stage judge (linkHealthScore, buildJudgePrompt, Judge), with theorems
settling the spec's claims about them.

Modelling conventions:
* Go `error` values are `Option String` (`none` = Go `nil`).
* Go `int` counts are `Nat` where the source only produces non-negative
  values (lengths, word counts, scores); HTTP status codes are `Int`.
* Go `float64` arithmetic in `linkHealthScore` and the judge's `Overall`
  weighting is modelled as exact arithmetic (`Nat` floor division, `ℚ`):
  `int(float64(h)/float64(t)*9)` agrees with `(9*h)/t` for all realistic
  list sizes, and the `Overall` weighted sum is the algebraic formula the
  float code evaluates.
* Network and LLM nondeterminism are oracle parameters: an HTTP probe is a
  function from URL to outcome, the scoring capability is an
  `Except String (List judgeEvaluation)` value.
-/

namespace NovaGroundingDemo

/-- Citation from provider.go: a web source citation `{URL, Domain, Title}`.
Field defaults mirror Go zero values. -/
structure Citation where
  url : String := ""
  domain : String := ""
  title : String := ""
deriving DecidableEq

/-- TokenUsage from provider.go: input/output token counts. -/
structure TokenUsage where
  input : Nat := 0
  output : Nat := 0
deriving DecidableEq

/-- Result from provider.go: a provider's response. `duration` is the nanosecond
count of the Go `time.Duration`; `error` is `none` for a Go `nil` error. -/
structure Result where
  text : String := ""
  citations : List Citation := []
  duration : Nat := 0
  tokens : TokenUsage := {}
  error : Option String := none
deriving DecidableEq

/-- Identity part of the Provider interface (provider.go): `Name()`,
`DisplayName()` and `Emoji()` are constant strings per provider; the
behavioural methods `CheckAuth`/`Query` are external capabilities and are
not needed by the judged pipeline. -/
structure ProviderId where
  name : String := ""
  displayName : String := ""
  emoji : String := ""
deriving DecidableEq

/-- JudgeScore attached to a ranked result. The Go struct (used in part_002
lines 322-338) has int fields Quality, LinkHealth, Recency, Significance,
Impact, a float64 Overall (modelled in `ℚ`) and a Reasoning string. Defaults
mirror Go zero values, which the fallback constructor relies on. -/
structure JudgeScore where
  quality : Int := 0
  linkHealth : Int := 0
  recency : Int := 0
  significance : Int := 0
  impact : Int := 0
  overall : ℚ := 0
  reasoning : String := ""
deriving DecidableEq

/-- ModelResult: one provider's entry in the compared result set, as built by
runAllModels (claude.go lines 217-221) and consumed by Judge (part_002). -/
structure ModelResult where
  provider : ProviderId := {}
  result : Result := {}
  score : Nat := 0
  judgeScore : Option JudgeScore := none
deriving DecidableEq

/-- judgeEvaluation from part_002 lines 86-93: one structured evaluation
returned by the scoring LLM, keyed by a model label. -/
structure judgeEvaluation where
  model : String := ""
  quality : Int := 0
  recency : Int := 0
  significance : Int := 0
  impact : Int := 0
  reasoning : String := ""
deriving DecidableEq

/-- CitationCheck from part_002 lines 18-25: the outcome of one HTTP HEAD
probe of a citation URL. `latency` is the nanosecond count. -/
structure CitationCheck where
  url : String := ""
  statusCode : Int := 0
  healthy : Bool := false
  latency : Nat := 0
  error : String := ""
deriving DecidableEq

/-! ## Deduplicator (provider.go lines 110-115) -/

/-- State threaded through citation parsing: the collected citation list and
the set of seen URLs. The Go seen set is `map[string]bool`; it is modelled as
the list of URLs inserted so far (membership is all that is consulted). -/
structure DedupState where
  citations : List Citation := []
  seen : List String := []
deriving DecidableEq

/-- DeduplicateCitations from provider.go lines 110-115: append the candidate
and mark its URL seen only if the URL is non-empty and not already seen,
otherwise leave both unchanged. -/
def dedupStep (st : DedupState) (c : Citation) : DedupState :=
  if c.url ≠ "" ∧ c.url ∉ st.seen then
    { citations := st.citations ++ [c], seen := st.seen ++ [c.url] }
  else st

/-! ## Word counting (strings.Fields) -/

/-- Whitespace test of Go `unicode.IsSpace`: the Latin-1 white space
characters plus the Unicode White_Space code points, which is exactly the
set `strings.Fields` splits on. -/
def goIsSpace (c : Char) : Bool :=
  c ∈ [' ', '\t', '\n', '\x0b', '\x0c', '\r', '\u0085', '\u00A0',
       '\u1680', '\u2000', '\u2001', '\u2002', '\u2003', '\u2004', '\u2005',
       '\u2006', '\u2007', '\u2008', '\u2009', '\u200A', '\u2028', '\u2029',
       '\u202F', '\u205F', '\u3000']

/-- Number of whitespace-delimited tokens of a string:
`len(strings.Fields(s))`. A left fold counts the starts of maximal
non-space runs; the Bool component records being inside a token. -/
def fieldsCount (s : String) : Nat :=
  (s.data.foldl
    (fun (st : Bool × Nat) c =>
      if goIsSpace c then (false, st.2)
      else if st.1 then (true, st.2) else (true, st.2 + 1))
    (false, 0)).2

/-! ## Orchestrator heuristic score (claude.go lines 493-501) -/

/-- ModelResponse from claude.go lines 323-332 (the orchestrator's per-model
record): response text, citations, error, the word count the callers fill in
with `len(strings.Fields(Text))`, and the computed score. -/
structure ModelResponse where
  modelName : String := ""
  text : String := ""
  citations : List Citation := []
  duration : Nat := 0
  error : Option String := none
  wordCount : Nat := 0
  score : Nat := 0
deriving DecidableEq

/-- calculateScore from claude.go lines 493-501: 0 on an errored response,
otherwise 10 points per citation plus the word count divided by 10, the word
component capped at 50. Go's `/` on the non-negative word count is `Nat`
division. -/
def calculateScore (resp : ModelResponse) : Nat :=
  if resp.error ≠ none then 0
  else resp.citations.length * 10 + min (resp.wordCount / 10) 50

/-- The per-response steps of runAllModels / runSingleModel (claude.go lines
446-447, 488-489): set WordCount from strings.Fields of the text, then set
Score from calculateScore. -/
def finalizeResponse (r : ModelResponse) : ModelResponse :=
  let r1 := { r with wordCount := fieldsCount r.text }
  { r1 with score := calculateScore r1 }

/-! ## LinkValidator (part_002 lines 28-83) -/

/-- Outcome of one HTTP HEAD probe, the network oracle for
`validateCitations`: either a transport error, or a status code, with the
elapsed latency (nanoseconds). -/
structure ProbeOutcome where
  err : Option String := none
  statusCode : Int := 0
  latency : Nat := 0

/-- Body of the per-citation goroutine of validateCitations (part_002 lines
41-58): on a transport error record the message with zero status and
`healthy = false`; otherwise record the status code and mark healthy iff it
lies in [200,400). -/
def mkCheck (url : String) (p : ProbeOutcome) : CitationCheck :=
  match p.err with
  | some e => { url := url, statusCode := 0, healthy := false, latency := p.latency, error := e }
  | none =>
      { url := url, statusCode := p.statusCode,
        healthy := decide (200 ≤ p.statusCode) && decide (p.statusCode < 400),
        latency := p.latency, error := "" }

/-- validateCitations from part_002 lines 28-63: one check per citation, in
input index order (each goroutine writes its own pre-assigned slot
`checks[idx]`), probing the citation's URL. -/
def validateCitations (probe : String → ProbeOutcome) (citations : List Citation) :
    List CitationCheck :=
  citations.map (fun c => mkCheck c.url (probe c.url))

/-- linkHealthScore from part_002 lines 67-83: 5 on an empty list, otherwise
`int(pct*9) + 1` capped at 10, where pct is the healthy fraction. The float
truncation `int(float64(h)/float64(t)*9)` equals the floor `(9*h)/t`
(`Nat` division). -/
def linkHealthScore (checks : List CitationCheck) : Nat :=
  if checks.length = 0 then 5
  else min (9 * checks.countP (fun c => c.healthy) / checks.length + 1) 10

/-! ## Descending stable insertion sort

Go's `sort.Slice` (claude.go line 237) delegates to its insertion sort for
slices of at most 12 elements (`pdqsort`, `maxInsertion = 12`); the run-all
result set holds at most one entry per registered provider (4 providers
register themselves), so the executed algorithm is insertion sort. Go's
insertion sort bubbles `a[i]` left while `less(a[j], a[j-1])`, i.e. a new
element moves left past strictly smaller keys and stops at the first key
at least its own; folding the list from the left and inserting each element
below all keys `≥` its own is the same algorithm. `sort.SliceStable`
(part_002 line 342) is specified as exactly this stable order. -/

/-- Insert `x` into a descending-sorted list: `x` goes before the first
element whose key is strictly below `k x`, hence after every element with an
equal key (stability). -/
def insDesc {α β : Type} [LinearOrder β] (k : α → β) (x : α) : List α → List α
  | [] => [x]
  | y :: ys => if k y < k x then x :: y :: ys else y :: insDesc k x ys

/-- Sort descending by key, stably: fold the arrival-ordered list from the
left, inserting each element into the sorted prefix. -/
def sortDesc {α β : Type} [LinearOrder β] (k : α → β) (l : List α) : List α :=
  l.foldl (fun acc x => insDesc k x acc) []

/-- The sort of runAllModels (claude.go lines 236-239): order the collected
results by heuristic score, highest first. -/
def sortModelResults (rs : List ModelResult) : List ModelResult :=
  sortDesc (fun mr => mr.score) rs

/-! ## Judge (part_002 lines 166-354) -/

/-- Number of results whose provider query produced no error (part_002
lines 203-209). -/
def countValid (results : List ModelResult) : Nat :=
  results.countP (fun mr => decide (mr.result.error = none))

/-- The provider-to-checks map of Judge phase 1 (part_002 lines 172-189):
each non-error result's citations are validated and stored under the
provider's name; a missing key reads as the empty slice. Provider names are
unique (the registry is keyed by name), so the first non-error result with
the given name is the only one. -/
def allChecks (probe : String → ProbeOutcome) (results : List ModelResult)
    (name : String) : List CitationCheck :=
  match results.find? (fun mr =>
      decide (mr.result.error = none) && decide (mr.provider.name = name)) with
  | some mr => validateCitations probe mr.result.citations
  | none => []

/-- Lower-cased character list of a string (`strings.ToLower`; provider
labels are ASCII, where Lean's `Char.toLower` agrees with Go). -/
def lowerOf (s : String) : List Char := s.data.map Char.toLower

/-- Pattern is a leading segment of the other list (`strings.HasPrefix` on
character lists). -/
def leadsWith : List Char → List Char → Bool
  | [], _ => true
  | _ :: _, [] => false
  | a :: as, b :: bs => a == b && leadsWith as bs

/-- Pattern occurs somewhere in the other list (`strings.Contains` on
character lists; the empty pattern always occurs). -/
def occursIn (pat : List Char) : List Char → Bool
  | [] => leadsWith pat []
  | c :: rest => leadsWith pat (c :: rest) || occursIn pat rest

/-- The fuzzy matching rule of part_002 lines 303-309: the evaluation label
contains the provider's short name, or the provider's display name contains
the label, both case-insensitively. -/
def fuzzyMatch (p : ProviderId) (e : judgeEvaluation) : Bool :=
  occursIn (lowerOf p.name) (lowerOf e.model) ||
    occursIn (lowerOf e.model) (lowerOf p.displayName)

/-- The entries of the Go map built at part_002 lines 288-291: one entry per
distinct model label, a later evaluation overwriting an earlier one with the
same label. A Go map iterates in unspecified order; the entries are kept here
in the order of their (surviving) occurrences, and no theorem below depends
on that choice. -/
def evalMapEntries (evals : List judgeEvaluation) : List judgeEvaluation :=
  evals.foldr
    (fun e acc => if acc.any (fun x => x.model == e.model) then acc else e :: acc) []

/-- The JudgeScore built from a matched evaluation (part_002 lines 315-330):
the evaluation's four dimensions, the computed link-health score, and the
weighted overall 0.25/0.15/0.20/0.20/0.20 composite. -/
def mkMatched (e : judgeEvaluation) (lh : Nat) : JudgeScore :=
  { quality := e.quality, linkHealth := (lh : Int), recency := e.recency,
    significance := e.significance, impact := e.impact,
    overall := (e.quality : ℚ) * 0.25 + (lh : ℚ) * 0.15 + (e.recency : ℚ) * 0.20
      + (e.significance : ℚ) * 0.20 + (e.impact : ℚ) * 0.20,
    reasoning := e.reasoning }

/-- The fallback JudgeScore (part_002 lines 331-338): link health only, the
four LLM dimensions left at their zero values, the overall equal to the
link-health score, and a fixed reasoning marker. -/
def mkFallback (lh : Nat) : JudgeScore :=
  { linkHealth := (lh : Int), overall := (lh : ℚ),
    reasoning := "Judge did not return evaluation for this model" }

/-- The attach step of Judge phase 3 (part_002 lines 293-339) for one result:
errored results are left untouched; otherwise the evaluation is looked up by
exact display name, then by the fuzzy rule, and the matched or fallback
JudgeScore is attached. -/
def attachOne (probe : String → ProbeOutcome) (results : List ModelResult)
    (evals : List judgeEvaluation) (mr : ModelResult) : ModelResult :=
  if mr.result.error ≠ none then mr
  else
    let lh := linkHealthScore (allChecks probe results mr.provider.name)
    match (evalMapEntries evals).find? (fun e => e.model == mr.provider.displayName) with
    | some e => { mr with judgeScore := some (mkMatched e lh) }
    | none =>
        match (evalMapEntries evals).find? (fuzzyMatch mr.provider) with
        | some e => { mr with judgeScore := some (mkMatched e lh) }
        | none => { mr with judgeScore := some (mkFallback lh) }

/-- Sort key of the final ranking (part_002 lines 342-351): the overall judge
score, with a missing JudgeScore ranking as 0. -/
def overallKey (mr : ModelResult) : ℚ :=
  match mr.judgeScore with
  | some js => js.overall
  | none => 0

/-- Judge from part_002 lines 166-354, with the network probe and the scoring
capability as oracle parameters. If no result is usable the input is returned
unchanged with no error; a capability failure (API error, parse error
— both `Except.error` — or an empty evaluation list) returns the input
unchanged together with an error; otherwise every usable result gets a
JudgeScore attached and the list is stable-sorted by overall score
descending. -/
def Judge (probe : String → ProbeOutcome)
    (capability : Except String (List judgeEvaluation))
    (results : List ModelResult) : List ModelResult × Option String :=
  if countValid results = 0 then (results, none)
  else
    match capability with
    | .error e => (results, some ("judge API error: " ++ e))
    | .ok evals =>
        if evals.length = 0 then (results, some "judge returned no evaluations")
        else
          (sortDesc overallKey (results.map (attachOne probe results evals)), none)

/-! ## Lemmas about the descending stable insertion sort -/

section SortLemmas

variable {α β : Type} [LinearOrder β] (k : α → β)

theorem insDesc_perm (x : α) (l : List α) : List.Perm (insDesc k x l) (x :: l) := by
  induction l with
  | nil => simp [insDesc]
  | cons y ys ih =>
    simp only [insDesc]
    split
    · exact List.Perm.refl _
    · exact (ih.cons y).trans (List.Perm.swap x y ys)

theorem insDesc_mem {x b : α} {l : List α} (h : b ∈ insDesc k x l) : b = x ∨ b ∈ l := by
  have := (insDesc_perm k x l).mem_iff.mp h
  exact List.mem_cons.mp this

theorem insDesc_pairwise {x : α} {l : List α}
    (h : l.Pairwise (fun a b => k b ≤ k a)) :
    (insDesc k x l).Pairwise (fun a b => k b ≤ k a) := by
  induction l with
  | nil => simp [insDesc]
  | cons y ys ih =>
    obtain ⟨hy, hys⟩ := List.pairwise_cons.mp h
    simp only [insDesc]
    split
    · rename_i hlt
      refine List.pairwise_cons.mpr ⟨?_, h⟩
      intro b hb
      have hb2 : k b ≤ k y := by
        rcases List.mem_cons.mp hb with rfl | hb3
        · exact le_refl _
        · exact hy b hb3
      exact hb2.trans (le_of_lt hlt)
    · rename_i hge
      refine List.pairwise_cons.mpr ⟨?_, ih hys⟩
      intro b hb
      rcases insDesc_mem k hb with rfl | hb2
      · exact le_of_not_lt hge
      · exact hy b hb2

theorem insDesc_filter_of_sorted {x : α} {l : List α}
    (h : l.Pairwise (fun a b => k b ≤ k a)) (s : β) :
    (insDesc k x l).filter (fun y => decide (k y = s)) =
      l.filter (fun y => decide (k y = s)) ++ (if k x = s then [x] else []) := by
  induction l with
  | nil => by_cases hxs : k x = s <;> simp [insDesc, hxs]
  | cons y ys ih =>
    obtain ⟨hy, hys⟩ := List.pairwise_cons.mp h
    simp only [insDesc]
    split
    · rename_i hlt
      have hkey : ∀ a ∈ y :: ys, k a ≤ k y := by
        intro a ha
        rcases List.mem_cons.mp ha with rfl | ha2
        · exact le_refl _
        · exact hy a ha2
      by_cases hxs : k x = s
      · have hnil : List.filter (fun z => decide (k z = s)) (y :: ys) = [] := by
          rw [List.filter_eq_nil_iff]
          intro a ha
          have h3 : k a < s := hxs ▸ lt_of_le_of_lt (hkey a ha) hlt
          simp only [decide_eq_true_eq]
          exact ne_of_lt h3
        rw [List.filter_cons_of_pos (by simp [hxs]), hnil]
        simp [hxs]
      · rw [List.filter_cons_of_neg (by simp [hxs]), if_neg hxs]
        simp
    · rename_i hge
      simp only [List.filter_cons]
      rw [ih hys]
      by_cases hys2 : k y = s <;> simp [hys2]

theorem sortDesc_foldl_spec (l : List α) :
    ∀ acc : List α, acc.Pairwise (fun a b => k b ≤ k a) →
      (l.foldl (fun acc x => insDesc k x acc) acc).Pairwise (fun a b => k b ≤ k a) ∧
      List.Perm (l.foldl (fun acc x => insDesc k x acc) acc) (acc ++ l) ∧
      ∀ s : β, (l.foldl (fun acc x => insDesc k x acc) acc).filter (fun y => decide (k y = s)) =
        acc.filter (fun y => decide (k y = s)) ++ l.filter (fun y => decide (k y = s)) := by
  induction l with
  | nil => intro acc hacc; exact ⟨hacc, by simp, by simp⟩
  | cons x xs ih =>
    intro acc hacc
    obtain ⟨ha, hb, hc⟩ := ih (insDesc k x acc) (insDesc_pairwise k hacc)
    simp only [List.foldl_cons]
    refine ⟨ha, ?_, ?_⟩
    · exact hb.trans (((insDesc_perm k x acc).append_right xs).trans List.perm_middle.symm)
    · intro s
      rw [hc s, insDesc_filter_of_sorted k hacc s]
      by_cases hxs : k x = s <;> simp [List.filter_cons, hxs, List.append_assoc]

theorem sortDesc_spec (l : List α) :
    (sortDesc k l).Pairwise (fun a b => k b ≤ k a) ∧
    List.Perm (sortDesc k l) l ∧
    ∀ s : β, (sortDesc k l).filter (fun y => decide (k y = s)) =
      l.filter (fun y => decide (k y = s)) := by
  obtain ⟨h1, h2, h3⟩ := sortDesc_foldl_spec k l [] List.Pairwise.nil
  exact ⟨h1, by simpa using h2, fun s => by simpa using h3 s⟩

end SortLemmas

/-! ## Claim theorems -/

/-- C1: every collection of provider results that run-all mode sorts (at most
one result per registered provider, hence at most 12 entries, the regime in
which Go's `sort.Slice` runs its stable insertion sort) comes back ordered by
heuristic score descending, as a permutation of the arrival-ordered input, and
results with equal scores keep their arrival order. -/
theorem runAllModels_sort_sorted_stable (rs : List ModelResult)
    (_hlen : rs.length ≤ 12) :
    (sortModelResults rs).Pairwise (fun a b => b.score ≤ a.score) ∧
    List.Perm (sortModelResults rs) rs ∧
    ∀ s : Nat, (sortModelResults rs).filter (fun r => decide (r.score = s)) =
      rs.filter (fun r => decide (r.score = s)) :=
  sortDesc_spec (fun mr => mr.score) rs

/-- Arrival-ordered example collection with a score tie, for the C1 witness. -/
def c1Example : List ModelResult :=
  [ { provider := { name := "nova" }, score := 30 },
    { provider := { name := "claude" }, score := 60 },
    { provider := { name := "gemini" }, score := 30 } ]

/-- The C1 theorem applied to a concrete three-element arrival order. -/
theorem runAllModels_sort_sorted_stable_witness :
    c1Example.length ≤ 12 ∧
    ((sortModelResults c1Example).Pairwise (fun a b => b.score ≤ a.score) ∧
     List.Perm (sortModelResults c1Example) c1Example ∧
     ∀ s : Nat, (sortModelResults c1Example).filter (fun r => decide (r.score = s)) =
       c1Example.filter (fun r => decide (r.score = s))) :=
  ⟨by decide, runAllModels_sort_sorted_stable c1Example (by decide)⟩

/-- C2: linkHealthScore always lands in [1,10]; it is 5 on the empty list, 10
when every check is healthy, 1 when none is, and in general is
`min(10, floor((healthy/total)*9) + 1)` on a non-empty list. -/
theorem linkHealthScore_spec (checks : List CitationCheck) :
    1 ≤ linkHealthScore checks ∧
    linkHealthScore checks ≤ 10 ∧
    (checks = [] → linkHealthScore checks = 5) ∧
    (checks ≠ [] → (∀ c ∈ checks, c.healthy = true) → linkHealthScore checks = 10) ∧
    (checks ≠ [] → (∀ c ∈ checks, c.healthy = false) → linkHealthScore checks = 1) ∧
    (checks ≠ [] → linkHealthScore checks =
      min 10 (9 * checks.countP (fun c => c.healthy) / checks.length + 1)) := by
  by_cases hnil : checks = []
  · subst hnil
    refine ⟨by simp [linkHealthScore], by simp [linkHealthScore],
      fun _ => rfl, fun h => absurd rfl h, fun h => absurd rfl h, fun h => absurd rfl h⟩
  · have hpos : 0 < checks.length := List.length_pos.mpr hnil
    have hlen : checks.length ≠ 0 := Nat.pos_iff_ne_zero.mp hpos
    have hdef : linkHealthScore checks =
        min (9 * checks.countP (fun c => c.healthy) / checks.length + 1) 10 := by
      simp [linkHealthScore, hlen]
    refine ⟨?_, ?_, fun h => absurd h hnil, ?_, ?_, ?_⟩
    · rw [hdef]
      exact le_min (Nat.succ_le_succ (Nat.zero_le _)) (by norm_num)
    · rw [hdef]; exact min_le_right _ _
    · intro _ hall
      have hcount : checks.countP (fun c => c.healthy) = checks.length :=
        List.countP_eq_length.mpr (fun a ha => by simp [hall a ha])
      rw [hdef, hcount, Nat.mul_div_cancel 9 hpos]
      rfl
    · intro _ hnone
      have hcount : checks.countP (fun c => c.healthy) = 0 :=
        List.countP_eq_zero.mpr (fun a ha => by simp [hnone a ha])
      rw [hdef, hcount]
      simp
    · intro _
      rw [hdef, Nat.min_comm]

/-- Concrete check lists (mixed, empty, all healthy, all unhealthy) for the
C2 witness. -/
def c2Mixed : List CitationCheck :=
  [ { url := "https://a.example/1", statusCode := 200, healthy := true },
    { url := "https://a.example/2", statusCode := 404, healthy := false },
    { url := "https://a.example/3", statusCode := 0, healthy := false, error := "dial tcp: timeout" } ]

/-- The C2 theorem applied to concrete check lists. -/
theorem linkHealthScore_spec_witness :
    linkHealthScore ([] : List CitationCheck) = 5 ∧
    linkHealthScore [{ url := "u", statusCode := 301, healthy := true }] = 10 ∧
    linkHealthScore [{ url := "u", statusCode := 500, healthy := false }] = 1 ∧
    (c2Mixed ≠ [] ∧ linkHealthScore c2Mixed =
      min 10 (9 * c2Mixed.countP (fun c => c.healthy) / c2Mixed.length + 1)) :=
  ⟨(linkHealthScore_spec []).2.2.1 rfl,
   (linkHealthScore_spec _).2.2.2.1 (by decide) (by decide),
   (linkHealthScore_spec _).2.2.2.2.1 (by decide) (by decide),
   by decide, (linkHealthScore_spec c2Mixed).2.2.2.2.2 (by decide)⟩

/-- C3: the heuristic score is 0 exactly on errored responses and otherwise
10 per citation plus a word-count component `min(wordCount/10, 50)`, where
the orchestrator fills wordCount with the whitespace-token count of the text;
the word component never exceeds 50, and the score is monotone in both the
citation count and the word count. -/
theorem calculateScore_spec :
    (∀ r : ModelResponse, r.error ≠ none → calculateScore r = 0) ∧
    (∀ r : ModelResponse, r.error = none →
      calculateScore r = r.citations.length * 10 + min (r.wordCount / 10) 50) ∧
    (∀ r : ModelResponse, r.error = none →
      (finalizeResponse r).score =
        r.citations.length * 10 + min (fieldsCount r.text / 10) 50) ∧
    (∀ r : ModelResponse, r.error = none →
      calculateScore r ≤ r.citations.length * 10 + 50) ∧
    (∀ r r' : ModelResponse, r.error = none → r'.error = none →
      r.wordCount = r'.wordCount → r.citations.length ≤ r'.citations.length →
      calculateScore r ≤ calculateScore r') ∧
    (∀ r r' : ModelResponse, r.error = none → r'.error = none →
      r.citations.length = r'.citations.length → r.wordCount ≤ r'.wordCount →
      calculateScore r ≤ calculateScore r') := by
  refine ⟨?_, ?_, ?_, ?_, ?_, ?_⟩
  · intro r hr
    simp [calculateScore, hr]
  · intro r hr
    simp [calculateScore, hr]
  · intro r hr
    simp [finalizeResponse, calculateScore, hr]
  · intro r hr
    simp only [calculateScore, hr, ne_eq, not_true_eq_false, if_false]
    exact Nat.add_le_add_left (min_le_right _ _) _
  · intro r r' hr hr' hw hc
    simp only [calculateScore, hr, hr', ne_eq, not_true_eq_false, if_false]
    exact Nat.add_le_add (Nat.mul_le_mul_right 10 hc) (hw ▸ le_refl _)
  · intro r r' hr hr' hc hw
    simp only [calculateScore, hr, hr', ne_eq, not_true_eq_false, if_false]
    exact Nat.add_le_add (hc ▸ le_refl _)
      (min_le_min (Nat.div_le_div_right hw) (le_refl _))

/-- Concrete responses for the C3 witness: an errored one, a clean one, and
a pair differing only in citation count. -/
def c3Clean : ModelResponse :=
  { text := "Paris is the capital of France.",
    citations := [{ url := "https://a.example/1" }], error := none }

/-- The C3 theorem applied to concrete responses. -/
theorem calculateScore_spec_witness :
    calculateScore { error := some "timeout" } = 0 ∧
    (finalizeResponse c3Clean).score =
      c3Clean.citations.length * 10 + min (fieldsCount c3Clean.text / 10) 50 ∧
    calculateScore { wordCount := 120, error := none } ≤
      calculateScore { citations := [{ url := "u" }], wordCount := 120, error := none } :=
  ⟨calculateScore_spec.1 _ (by decide),
   calculateScore_spec.2.2.1 c3Clean rfl,
   calculateScore_spec.2.2.2.2.1 _ _ rfl rfl rfl (by decide)⟩

/-! ## Judge helper lemmas -/

theorem evalMapEntries_cons (a : judgeEvaluation) (as : List judgeEvaluation) :
    evalMapEntries (a :: as) =
      if (evalMapEntries as).any (fun x => x.model == a.model) then evalMapEntries as
      else a :: evalMapEntries as := rfl

theorem evalMapEntries_subset {evals : List judgeEvaluation} {e : judgeEvaluation}
    (h : e ∈ evalMapEntries evals) : e ∈ evals := by
  induction evals with
  | nil => exact absurd h (List.not_mem_nil e)
  | cons a as ih =>
    rw [evalMapEntries_cons] at h
    split at h
    · exact List.mem_cons_of_mem a (ih h)
    · rcases List.mem_cons.mp h with rfl | h2
      · exact List.mem_cons_self e as
      · exact List.mem_cons_of_mem a (ih h2)

theorem attachOne_of_errored (probe : String → ProbeOutcome)
    (results : List ModelResult) (evals : List judgeEvaluation) (mr : ModelResult)
    (h : mr.result.error ≠ none) : attachOne probe results evals mr = mr := by
  unfold attachOne
  rw [if_pos h]

theorem attachOne_of_valid (probe : String → ProbeOutcome)
    (results : List ModelResult) (evals : List judgeEvaluation) (mr : ModelResult)
    (h : mr.result.error = none) :
    ∃ js : JudgeScore, attachOne probe results evals mr = { mr with judgeScore := some js } := by
  unfold attachOne
  rw [if_neg (by simp [h])]
  cases hfind : (evalMapEntries evals).find? (fun e => e.model == mr.provider.displayName) with
  | some e =>
      exact ⟨mkMatched e (linkHealthScore (allChecks probe results mr.provider.name)),
        by simp [hfind]⟩
  | none =>
      cases hfz : (evalMapEntries evals).find? (fuzzyMatch mr.provider) with
      | some e =>
          exact ⟨mkMatched e (linkHealthScore (allChecks probe results mr.provider.name)),
            by simp [hfind, hfz]⟩
      | none =>
          exact ⟨mkFallback (linkHealthScore (allChecks probe results mr.provider.name)),
            by simp [hfind, hfz]⟩

theorem countValid_ne_zero_of_mem {results : List ModelResult} {mr : ModelResult}
    (hmem : mr ∈ results) (herr : mr.result.error = none) : countValid results ≠ 0 := by
  have : 0 < countValid results :=
    List.countP_pos_iff.mpr ⟨mr, hmem, by simp [herr]⟩
  omega

theorem judge_ok_eq (probe : String → ProbeOutcome) (evals : List judgeEvaluation)
    (results : List ModelResult)
    (hvalid : countValid results ≠ 0) (hev : evals ≠ []) :
    Judge probe (.ok evals) results =
      (sortDesc overallKey (results.map (attachOne probe results evals)), none) := by
  unfold Judge
  rw [if_neg hvalid]
  simp only
  rw [if_neg (by simpa [List.length_eq_zero] using hev)]

/-- C4: the JudgeScore built from a matched evaluation has
`Overall = 0.25·Quality + 0.15·LinkHealth + 0.20·Recency + 0.20·Significance
+ 0.20·Impact`, the five weights sum to 1, and the attach phase installs
exactly this score on an exact display-name match. -/
theorem judge_overall_weighted (e : judgeEvaluation) (lh : Nat) :
    ((mkMatched e lh).overall =
        0.25 * ((mkMatched e lh).quality : ℚ) + 0.15 * ((mkMatched e lh).linkHealth : ℚ)
      + 0.20 * ((mkMatched e lh).recency : ℚ) + 0.20 * ((mkMatched e lh).significance : ℚ)
      + 0.20 * ((mkMatched e lh).impact : ℚ)) ∧
    ((0.25 : ℚ) + 0.15 + 0.20 + 0.20 + 0.20 = 1) ∧
    (∀ (probe : String → ProbeOutcome) (results : List ModelResult)
        (evals : List judgeEvaluation) (mr : ModelResult),
      mr.result.error = none →
      (evalMapEntries evals).find? (fun x => x.model == mr.provider.displayName) = some e →
      attachOne probe results evals mr = { mr with judgeScore := some (mkMatched e
        (linkHealthScore (allChecks probe results mr.provider.name))) }) := by
  refine ⟨?_, by norm_num, ?_⟩
  · simp only [mkMatched, Int.cast_natCast]
    ring
  · intro probe results evals mr herr hfind
    unfold attachOne
    rw [if_neg (by simp [herr])]
    simp [hfind]

/-- Concrete evaluation, provider and probe for the C4 witness. -/
def c4Eval : judgeEvaluation :=
  { model := "Claude 4.5 Sonnet", quality := 8, recency := 7,
    significance := 6, impact := 5, reasoning := "solid citations" }

/-- Concrete usable result for the C4 witness. -/
def c4Mr : ModelResult :=
  { provider := { name := "claude", displayName := "Claude 4.5 Sonnet" },
    result := { text := "Paris is the capital of France.", error := none } }

/-- The C4 theorem applied to a concrete matched evaluation. -/
theorem judge_overall_weighted_witness :
    ((mkMatched c4Eval 5).overall =
        0.25 * ((mkMatched c4Eval 5).quality : ℚ) + 0.15 * ((mkMatched c4Eval 5).linkHealth : ℚ)
      + 0.20 * ((mkMatched c4Eval 5).recency : ℚ) + 0.20 * ((mkMatched c4Eval 5).significance : ℚ)
      + 0.20 * ((mkMatched c4Eval 5).impact : ℚ)) ∧
    attachOne (fun _ => { err := some "unreachable" }) [c4Mr] [c4Eval] c4Mr =
      { c4Mr with judgeScore := some (mkMatched c4Eval (linkHealthScore
          (allChecks (fun _ => { err := some "unreachable" }) [c4Mr] c4Mr.provider.name))) } :=
  ⟨(judge_overall_weighted c4Eval 5).1,
   (judge_overall_weighted c4Eval 5).2.2 _ [c4Mr] [c4Eval] c4Mr rfl (by decide)⟩

/-- C5: a usable result whose provider matches no returned evaluation, by
exact display name or by the fuzzy rule, receives the link-health-only
fallback JudgeScore — Overall equal to the provider's linkHealthScore, the
four LLM dimensions zero, the fixed marker — and stays in the Judge's
output rather than being dropped. -/
theorem judge_fallback_unmatched (probe : String → ProbeOutcome)
    (results : List ModelResult) (evals : List judgeEvaluation) (mr : ModelResult)
    (herr : mr.result.error = none)
    (hnm : ∀ e ∈ evals, e.model ≠ mr.provider.displayName ∧ fuzzyMatch mr.provider e = false) :
    (attachOne probe results evals mr = { mr with judgeScore := some (mkFallback
        (linkHealthScore (allChecks probe results mr.provider.name))) }) ∧
    (∀ lh : Nat, (mkFallback lh).overall = (lh : ℚ) ∧ (mkFallback lh).quality = 0 ∧
      (mkFallback lh).recency = 0 ∧ (mkFallback lh).significance = 0 ∧
      (mkFallback lh).impact = 0 ∧ (mkFallback lh).linkHealth = (lh : Int) ∧
      (mkFallback lh).reasoning = "Judge did not return evaluation for this model") ∧
    (mr ∈ results → evals ≠ [] →
      { mr with judgeScore := some (mkFallback
          (linkHealthScore (allChecks probe results mr.provider.name))) }
        ∈ (Judge probe (.ok evals) results).1) := by
  have hfind : (evalMapEntries evals).find? (fun e => e.model == mr.provider.displayName)
      = none := by
    rw [List.find?_eq_none]
    intro e he
    simpa using (hnm e (evalMapEntries_subset he)).1
  have hfz : (evalMapEntries evals).find? (fuzzyMatch mr.provider) = none := by
    rw [List.find?_eq_none]
    intro e he
    simp [(hnm e (evalMapEntries_subset he)).2]
  have hatt : attachOne probe results evals mr = { mr with judgeScore := some (mkFallback
      (linkHealthScore (allChecks probe results mr.provider.name))) } := by
    unfold attachOne
    rw [if_neg (by simp [herr])]
    simp [hfind, hfz]
  refine ⟨hatt, fun lh => ⟨rfl, rfl, rfl, rfl, rfl, rfl, rfl⟩, ?_⟩
  intro hmem hev
  rw [judge_ok_eq probe evals results (countValid_ne_zero_of_mem hmem herr) hev]
  have h1 : attachOne probe results evals mr ∈
      results.map (attachOne probe results evals) :=
    List.mem_map_of_mem (attachOne probe results evals) hmem
  rw [hatt] at h1
  exact ((sortDesc_spec overallKey (results.map (attachOne probe results evals))).2.1.mem_iff).mpr h1

/-- Concrete unmatched scenario for the C5 witness: the only evaluation is
labelled for a different provider and matches Grok neither exactly nor
fuzzily. -/
def c5Mr : ModelResult :=
  { provider := { name := "grok", displayName := "Grok 4 (xAI)" },
    result := { text := "Grounded answer.",
                citations := [{ url := "https://g.example/1" }], error := none } }

/-- Evaluation list for the C5 witness, covering only the other provider. -/
def c5Evals : List judgeEvaluation :=
  [{ model := "Claude 4.5 Sonnet", quality := 9, recency := 8,
     significance := 7, impact := 6, reasoning := "thorough" }]

/-- Probe for the C5 witness: every URL answers 200. -/
def c5Probe : String → ProbeOutcome := fun _ => { statusCode := 200 }

/-- The C5 theorem applied to the concrete unmatched scenario. -/
theorem judge_fallback_unmatched_witness :
    (attachOne c5Probe [c5Mr] c5Evals c5Mr = { c5Mr with judgeScore := some (mkFallback
        (linkHealthScore (allChecks c5Probe [c5Mr] c5Mr.provider.name))) }) ∧
    ({ c5Mr with judgeScore := some (mkFallback
        (linkHealthScore (allChecks c5Probe [c5Mr] c5Mr.provider.name))) }
      ∈ (Judge c5Probe (.ok c5Evals) [c5Mr]).1) :=
  ⟨(judge_fallback_unmatched c5Probe [c5Mr] c5Evals c5Mr rfl (by decide)).1,
   (judge_fallback_unmatched c5Probe [c5Mr] c5Evals c5Mr rfl (by decide)).2.2
     (List.mem_singleton.mpr rfl) (by decide)⟩

/-- C6: when at least one result is usable and the scoring capability fails
— the call errors, its structured output cannot be parsed (both are the
`Except.error` outcome), or it yields zero evaluations — the Judge returns
the input list unchanged together with a non-nil error. -/
theorem judge_error_preserves_results (probe : String → ProbeOutcome)
    (cap : Except String (List judgeEvaluation)) (results : List ModelResult)
    (hvalid : countValid results ≠ 0)
    (hfail : (∃ msg, cap = .error msg) ∨ cap = .ok []) :
    (Judge probe cap results).1 = results ∧ (Judge probe cap results).2.isSome := by
  rcases hfail with ⟨msg, rfl⟩ | rfl
  · unfold Judge
    rw [if_neg hvalid]
    exact ⟨rfl, rfl⟩
  · unfold Judge
    rw [if_neg hvalid]
    exact ⟨rfl, rfl⟩

/-- The C6 theorem applied to a concrete usable result with a failing
capability, in both failure shapes. -/
theorem judge_error_preserves_results_witness :
    ((Judge c5Probe (.error "api timeout") [c4Mr]).1 = [c4Mr] ∧
      (Judge c5Probe (.error "api timeout") [c4Mr]).2.isSome) ∧
    ((Judge c5Probe (.ok []) [c4Mr]).1 = [c4Mr] ∧
      (Judge c5Probe (.ok []) [c4Mr]).2.isSome) :=
  ⟨judge_error_preserves_results c5Probe _ [c4Mr] (by decide) (Or.inl ⟨_, rfl⟩),
   judge_error_preserves_results c5Probe _ [c4Mr] (by decide) (Or.inr rfl)⟩

/-- C7: when every input result carries an error, the Judge skips scoring and
ranking and returns the input unchanged with no error, whatever the scoring
capability would have answered. -/
theorem judge_skips_when_all_errored (probe : String → ProbeOutcome)
    (cap : Except String (List judgeEvaluation)) (results : List ModelResult)
    (h : ∀ mr ∈ results, mr.result.error ≠ none) :
    Judge probe cap results = (results, none) := by
  have hv : countValid results = 0 := by
    rw [countValid, List.countP_eq_zero]
    intro mr hmr
    simpa using h mr hmr
  unfold Judge
  rw [if_pos hv]

/-- Concrete all-errored input for the C7 witness. -/
def c7Results : List ModelResult :=
  [ { provider := { name := "nova" }, result := { error := some "API error: auth" } },
    { provider := { name := "grok" }, result := { error := some "API error: timeout" } } ]

/-- The C7 theorem applied to the concrete all-errored input. -/
theorem judge_skips_when_all_errored_witness :
    Judge c5Probe (.ok c5Evals) c7Results = (c7Results, none) :=
  judge_skips_when_all_errored c5Probe _ c7Results (by decide)

/-- The url field of a built check is the probed citation's URL, whatever the
probe outcome. -/
theorem mkCheck_url (u : String) (p : ProbeOutcome) : (mkCheck u p).url = u := by
  unfold mkCheck
  cases p.err <;> rfl

/-- C8: validateCitations returns exactly one check per citation, and the
check at every index carries the URL of the citation at the same index. -/
theorem validateCitations_alignment (probe : String → ProbeOutcome)
    (citations : List Citation) :
    (validateCitations probe citations).length = citations.length ∧
    ∀ (i : Nat) (hi : i < citations.length)
      (hi2 : i < (validateCitations probe citations).length),
      ((validateCitations probe citations).get ⟨i, hi2⟩).url =
        (citations.get ⟨i, hi⟩).url := by
  constructor
  · simp [validateCitations]
  · intro i hi hi2
    simp [validateCitations, List.get_eq_getElem, List.getElem_map, mkCheck_url]

/-- Concrete citations and probe for the C8 witness: one reachable URL, one
erroring URL. -/
def c8Citations : List Citation :=
  [{ url := "https://ok.example/a" }, { url := "https://down.example/b" }]

/-- Probe for the C8 witness. -/
def c8Probe : String → ProbeOutcome := fun u =>
  if u = "https://ok.example/a" then { statusCode := 200, latency := 120 }
  else { err := some "dial tcp: connection refused", latency := 5000 }

/-- The C8 theorem applied to the concrete citation list, read off at index 1. -/
theorem validateCitations_alignment_witness :
    (validateCitations c8Probe c8Citations).length = c8Citations.length ∧
    ((validateCitations c8Probe c8Citations).get ⟨1, by decide⟩).url =
      (c8Citations.get ⟨1, by decide⟩).url :=
  ⟨(validateCitations_alignment c8Probe c8Citations).1,
   (validateCitations_alignment c8Probe c8Citations).2 1 (by decide) (by decide)⟩

/-- Dedup folding invariant: starting from a state whose seen set is exactly
the URL list of its collection, is duplicate-free, and whose collection has
no empty URL, feeding any candidate sequence preserves all three. -/
theorem dedup_foldl_inv (cands : List Citation) :
    ∀ st : DedupState, st.seen = st.citations.map (fun c => c.url) →
      st.seen.Nodup → (∀ c ∈ st.citations, c.url ≠ "") →
      ((cands.foldl dedupStep st).seen =
          (cands.foldl dedupStep st).citations.map (fun c => c.url)) ∧
        (cands.foldl dedupStep st).seen.Nodup ∧
        ∀ c ∈ (cands.foldl dedupStep st).citations, c.url ≠ "" := by
  induction cands with
  | nil => intro st h1 h2 h3; exact ⟨h1, h2, h3⟩
  | cons c cs ih =>
    intro st h1 h2 h3
    simp only [List.foldl_cons]
    by_cases hc : c.url ≠ "" ∧ c.url ∉ st.seen
    · have hstep : dedupStep st c =
          { citations := st.citations ++ [c], seen := st.seen ++ [c.url] } := by
        unfold dedupStep
        rw [if_pos hc]
      rw [hstep]
      refine ih _ ?_ ?_ ?_
      · simp [h1]
      · refine List.nodup_append.mpr ⟨h2, List.nodup_singleton _, ?_⟩
        intro a ha
        simp only [List.mem_singleton]
        intro heq
        exact hc.2 (heq ▸ ha)
      · intro x hx
        rcases List.mem_append.mp hx with hx1 | hx2
        · exact h3 x hx1
        · rw [List.mem_singleton.mp hx2]
          exact hc.1
    · have hstep : dedupStep st c = st := by
        unfold dedupStep
        rw [if_neg hc]
      rw [hstep]
      exact ih st h1 h2 h3

/-- C9: feeding any candidate sequence through DeduplicateCitations from an
empty collection and seen set yields a collection with pairwise-distinct,
non-empty URLs, and a candidate whose URL is empty or already seen changes
neither the collection nor the seen set. -/
theorem dedup_invariant :
    (∀ cands : List Citation,
      ((cands.foldl dedupStep {}).citations.map (fun c => c.url)).Nodup ∧
      ∀ c ∈ (cands.foldl dedupStep {}).citations, c.url ≠ "") ∧
    (∀ (st : DedupState) (c : Citation),
      c.url = "" ∨ c.url ∈ st.seen → dedupStep st c = st) := by
  constructor
  · intro cands
    obtain ⟨h1, h2, h3⟩ := dedup_foldl_inv cands {} rfl List.nodup_nil (by simp)
    exact ⟨h1 ▸ h2, h3⟩
  · intro st c hc
    unfold dedupStep
    rw [if_neg ?_]
    push_neg
    intro hne
    rcases hc with hc | hc
    · exact absurd hc hne
    · exact hc

/-- Candidate sequence for the C9 witness: a duplicate URL, an empty URL and
two fresh URLs. -/
def c9Cands : List Citation :=
  [ { url := "https://a.example/1", title := "first" },
    { url := "" , title := "untitled" },
    { url := "https://a.example/1", title := "dup" },
    { url := "https://b.example/2", title := "second" } ]

/-- The C9 theorem applied to the concrete candidate sequence and to one
concrete no-op step. -/
theorem dedup_invariant_witness :
    (((c9Cands.foldl dedupStep {}).citations.map (fun c => c.url)).Nodup ∧
      ∀ c ∈ (c9Cands.foldl dedupStep {}).citations, c.url ≠ "") ∧
    dedupStep { citations := [{ url := "https://a.example/1" }],
                seen := ["https://a.example/1"] } { url := "https://a.example/1" } =
      { citations := [{ url := "https://a.example/1" }], seen := ["https://a.example/1"] } :=
  ⟨dedup_invariant.1 c9Cands,
   dedup_invariant.2 _ _ (Or.inr (by decide))⟩

/-- C10: when the Judge succeeds on an input with at least one usable result
(and, as the orchestrator guarantees, errored inputs carry no JudgeScore),
it reports no error, every output result without an Error carries an attached
JudgeScore, and every output result with an Error is an unmodified input
element, still carrying no JudgeScore. -/
theorem judge_success_attaches_scores (probe : String → ProbeOutcome)
    (evals : List judgeEvaluation) (results : List ModelResult)
    (hev : evals ≠ [])
    (hvalid : countValid results ≠ 0)
    (hin : ∀ mr ∈ results, mr.result.error ≠ none → mr.judgeScore = none) :
    (Judge probe (.ok evals) results).2 = none ∧
    ∀ mr ∈ (Judge probe (.ok evals) results).1,
      (mr.result.error = none → mr.judgeScore.isSome) ∧
      (mr.result.error ≠ none → mr.judgeScore = none ∧ mr ∈ results) := by
  rw [judge_ok_eq probe evals results hvalid hev]
  refine ⟨rfl, ?_⟩
  intro mr hmr
  have hmem : mr ∈ results.map (attachOne probe results evals) :=
    ((sortDesc_spec overallKey (results.map (attachOne probe results evals))).2.1.mem_iff).mp hmr
  obtain ⟨mr0, hmr0, rfl⟩ := List.mem_map.mp hmem
  by_cases herr : mr0.result.error = none
  · obtain ⟨js, hjs⟩ := attachOne_of_valid probe results evals mr0 herr
    rw [hjs]
    exact ⟨fun _ => rfl, fun hcontra => absurd herr (by simpa using hcontra)⟩
  · rw [attachOne_of_errored probe results evals mr0 herr]
    exact ⟨fun h => absurd h herr, fun _ => ⟨hin mr0 hmr0 herr, hmr0⟩⟩

/-- Concrete mixed input for the C10 witness: one usable result, one errored
result, and a single evaluation that matches the usable provider. -/
def c10Results : List ModelResult :=
  [ { provider := { name := "claude", displayName := "Claude 4.5 Sonnet" },
      result := { text := "Paris is the capital of France.",
                  citations := [{ url := "https://ok.example/a" }], error := none } },
    { provider := { name := "grok", displayName := "Grok 4 (xAI)" },
      result := { error := some "API error: timeout" } } ]

/-- The C10 theorem applied to the concrete mixed input. -/
theorem judge_success_attaches_scores_witness :
    (Judge c8Probe (.ok c5Evals) c10Results).2 = none ∧
    ∀ mr ∈ (Judge c8Probe (.ok c5Evals) c10Results).1,
      (mr.result.error = none → mr.judgeScore.isSome) ∧
      (mr.result.error ≠ none → mr.judgeScore = none ∧ mr ∈ c10Results) :=
  judge_success_attaches_scores c8Probe c5Evals c10Results (by decide) (by decide)
    (by decide)

end NovaGroundingDemo
